import Mathlib

/-!
The ingestion and query core of omnipos-audit-service.

A shallow embedding of the Go sources

* `internal/audit/repository/mongo_repository.go`
* `internal/audit/usecase/usecase.go`
* `internal/audit/handler/handler.go`
* `internal/audit/listener/listener.go`

Go maps (`map[string]interface{}`, `bson.M`) are association lists with
replace-on-write; `interface{}` values are a small tagged union; the effects
(`uuid.New`, `time.Now`, `InsertOne`, `Find`, `json.Unmarshal`, the logger,
`time.Sleep`) are an environment of oracles plus an explicit state.
-/

namespace Audit

/-! ## Values -/

/-- Go `time.Time`, as seconds and nanoseconds since January 1, year 1 UTC. -/
structure Time where
  sec : Int
  nsec : Int
deriving DecidableEq, Repr

/-- Go `Time.IsZero`: `t.sec() == 0 && t.nsec() == 0`. -/
def Time.IsZero (t : Time) : Bool := t.sec == 0 && t.nsec == 0

/-- The zero value of `time.Time`. -/
def Time.zero : Time := ⟨0, 0⟩

/-- A non-document dynamic value held in an `interface{}`. -/
inductive Atom where
  | str (s : String)
  | time (t : Time)
  | int (n : Int)
  | bool (b : Bool)
deriving DecidableEq, Repr

/-- A dynamic value held in an `interface{}`: an atom, or a `bson.M` of atoms. -/
inductive Value where
  | str (s : String)
  | time (t : Time)
  | int (n : Int)
  | bool (b : Bool)
  | doc (m : List (String × Atom))
deriving DecidableEq, Repr

/-- A Go map with string keys: `map[string]interface{}` or `bson.M`. -/
abbrev GoMap (α : Type) := List (String × α)

/-- Map read `m[k]` with the comma-ok result. -/
def GoMap.get {α : Type} (m : GoMap α) (k : String) : Option α :=
  match m with
  | [] => none
  | (k', v) :: rest => if k' = k then some v else GoMap.get rest k

/-- Map write `m[k] = v`: replaces the entry of `k` when there is one. -/
def GoMap.set {α : Type} (m : GoMap α) (k : String) (v : α) : GoMap α :=
  match m with
  | [] => [(k, v)]
  | (k', v') :: rest => if k' = k then (k', v) :: rest else (k', v') :: GoMap.set rest k v

/-- The keys of a map. -/
def GoMap.keys {α : Type} (m : GoMap α) : List String := m.map Prod.fst

/-- A `map[string]interface{}` field that may be nil (`none`). -/
abbrev Dyn := Option (GoMap Value)

/-! ## repository -/

/-- The Go struct `repository.AuditLog`. -/
structure AuditLog where
  ID : String
  MerchantID : String
  UserID : String
  Action : String
  Entity : String
  EntityID : String
  Details : Dyn
  IPAddress : String
  UserAgent : String
  Timestamp : Time
  StoreID : String
  SessionID : String
  OldValue : Dyn
  NewValue : Dyn
  Result : String
  ErrorMessage : String
  Severity : String
  SourceService : String
  CorrelationID : String
  DurationMs : Int
deriving DecidableEq, Repr

/-- Go `int32(x)`: two's-complement wrap of an integer to 32 bits. -/
def wrap32 (x : Int) : Int := (x + 2 ^ 31) % 2 ^ 32 - 2 ^ 31

/-- The range of Go `int32`. -/
def isInt32 (x : Int) : Prop := -(2 ^ 31) ≤ x ∧ x < 2 ^ 31

instance (x : Int) : Decidable (isInt32 x) := by unfold isInt32; infer_instance

/-- The first loop of `mongoRepository.ListAuditLogs`:
`for k, v := range filter { if v != "" { query[k] = v } }`, started from `query`. -/
def copyNonEmpty (query : GoMap Value) (filter : GoMap Value) : GoMap Value :=
  filter.foldl (fun q kv => if kv.2 ≠ Value.str "" then GoMap.set q kv.1 kv.2 else q) query

/-- The `start_date` step: `if start, ok := filter["start_date"].(time.Time); ok && !start.IsZero()`. -/
def applyStart (filter query : GoMap Value) : GoMap Value :=
  match GoMap.get filter "start_date" with
  | some (Value.time start) =>
    if !start.IsZero then GoMap.set query "timestamp" (Value.doc [("$gte", Atom.time start)])
    else query
  | _ => query

/-- The `end_date` step: extends the `timestamp` document when it is a `bson.M`,
otherwise writes a fresh `{$lte: end}`. -/
def applyEnd (filter query : GoMap Value) : GoMap Value :=
  match GoMap.get filter "end_date" with
  | some (Value.time endDate) =>
    if !endDate.IsZero then
      match GoMap.get query "timestamp" with
      | some (Value.doc val) =>
        GoMap.set query "timestamp" (Value.doc (GoMap.set val "$lte" (Atom.time endDate)))
      | _ => GoMap.set query "timestamp" (Value.doc [("$lte", Atom.time endDate)])
    else query
  | _ => query

/-- The BSON filter built by `mongoRepository.ListAuditLogs` (lines 62-80). -/
def buildQuery (filter : GoMap Value) : GoMap Value :=
  applyEnd filter (applyStart filter (copyNonEmpty [] filter))

/-- The options of the find: `SetSkip`, `SetLimit`, `SetSort`. -/
structure FindOptions where
  skip : Int
  limit : Int
  sort : GoMap Int
deriving DecidableEq, Repr

/-- Lines 83-85: `skip := int64((page - 1) * pageSize)`, `limit := int64(pageSize)`,
sort `{"timestamp": -1}`. The subtraction and the product are `int32` operations. -/
def findOptions (page pageSize : Int) : FindOptions :=
  { skip := wrap32 (wrap32 (page - 1) * pageSize)
    limit := pageSize
    sort := [("timestamp", -1)] }

/-! ## Effects: environment and state -/

/-- A Go `error` value, by its message. -/
abbrev GoError := String

/-- The Go struct `usecase.CreateAuditLogInput`. -/
structure CreateAuditLogInput where
  MerchantID : String
  UserID : String
  Action : String
  Entity : String
  EntityID : String
  Details : Dyn
  IPAddress : String
  UserAgent : String
  StoreID : String
  SessionID : String
  OldValue : Dyn
  NewValue : Dyn
  Result : String
  ErrorMessage : String
  Severity : String
  SourceService : String
  CorrelationID : String
  DurationMs : Int
deriving DecidableEq, Repr

/-- The Go struct `usecase.ListAuditLogsInput`; `Page` and `PageSize` are `int32`. -/
structure ListAuditLogsInput where
  MerchantID : String
  UserID : String
  Entity : String
  EntityID : String
  Action : String
  StartDate : Time
  EndDate : Time
  Page : Int
  PageSize : Int
  StoreID : String
  Severity : String
  Result : String
  SourceService : String
  CorrelationID : String
deriving DecidableEq, Repr

/-- The Go struct `listener.AuditPayload`. -/
structure AuditPayload where
  MerchantID : String
  UserID : String
  Action : String
  EntityType : String
  EntityID : String
  Details : Dyn
  IPAddress : String
  UserAgent : String
  StoreID : String
  SessionID : String
  OldValue : Dyn
  NewValue : Dyn
  Result : String
  ErrorMessage : String
  Severity : String
  CorrelationID : String
  DurationMs : Int
deriving DecidableEq, Repr

/-- The Go struct `listener.AuditEvent`. -/
structure AuditEvent where
  EventID : String
  EventType : String
  SourceService : String
  Payload : AuditPayload
  Timestamp : Time
deriving DecidableEq, Repr

/-- The outside world the service calls into. Each oracle is indexed by the
number of earlier calls, so that successive calls may answer differently. -/
structure Env where
  /-- The string of the n-th `uuid.New()`. -/
  newUUID : Nat → String
  /-- The result of the n-th `time.Now()`. -/
  now : Nat → Time
  /-- The error of the n-th `collection.InsertOne`, `none` for nil. -/
  insertOne : Nat → AuditLog → Option GoError
  /-- The outcome of `collection.Find` followed by `cursor.All`. -/
  find : GoMap Value → FindOptions → Except GoError (List AuditLog)
  /-- The outcome of `collection.CountDocuments`. -/
  countDocuments : GoMap Value → Except GoError Int
  /-- The outcome of `json.Unmarshal(value, &event)`. -/
  unmarshal : List UInt8 → Except GoError AuditEvent
  /-- The outcome of `structpb.NewStruct(m)`: the fields of the struct, or the error. -/
  newStruct : Dyn → Except GoError (GoMap Value)

/-- The level of a logger call. -/
inductive Level where
  | info
  | error
deriving DecidableEq, Repr

/-- One logger call: level and message (the zap fields are left out). -/
structure LogLine where
  level : Level
  msg : String
deriving DecidableEq, Repr

/-- The observable state: oracle counters, every `InsertOne` attempt in order,
the documents of `audit_logs`, the log output and the seconds slept. -/
structure State where
  uuids : Nat
  clock : Nat
  inserts : List AuditLog
  collection : List AuditLog
  logs : List LogLine
  slept : Nat
deriving DecidableEq, Repr

/-- The state of a fresh process. -/
def State.init : State := ⟨0, 0, [], [], [], 0⟩

/-- A logger call. -/
def State.log (st : State) (level : Level) (msg : String) : State :=
  { st with logs := st.logs ++ [⟨level, msg⟩] }

/-- `mongoRepository.CreateAuditLog`: one `InsertOne`, its error returned as is. -/
def Repository.CreateAuditLog (env : Env) (st : State) (log : AuditLog) : State × Option GoError :=
  let err := env.insertOne st.inserts.length log
  ({ st with
      inserts := st.inserts ++ [log]
      collection := if err.isNone then st.collection ++ [log] else st.collection },
   err)

/-- `mongoRepository.ListAuditLogs`: the query, the options, the find, the count,
and `int32(total)`. -/
def Repository.ListAuditLogs (env : Env) (filter : GoMap Value) (page pageSize : Int) :
    Except GoError (List AuditLog × Int) :=
  let query := buildQuery filter
  let opts := findOptions page pageSize
  match env.find query opts with
  | .error err => .error err
  | .ok logs =>
    match env.countDocuments query with
    | .error err => .error err
    | .ok total => .ok (logs, wrap32 total)

/-! ## usecase -/

/-- The record built by `auditUseCase.CreateAuditLog` (lines 71-102), given the
results of `uuid.New().String()` and `time.Now()`. -/
def newAuditLog (id : String) (now : Time) (input : CreateAuditLogInput) : AuditLog :=
  let result := if input.Result = "" then "success" else input.Result
  let severity := if input.Severity = "" then "info" else input.Severity
  { ID := id
    MerchantID := input.MerchantID
    UserID := input.UserID
    Action := input.Action
    Entity := input.Entity
    EntityID := input.EntityID
    Details := input.Details
    IPAddress := input.IPAddress
    UserAgent := input.UserAgent
    Timestamp := now
    StoreID := input.StoreID
    SessionID := input.SessionID
    OldValue := input.OldValue
    NewValue := input.NewValue
    Result := result
    ErrorMessage := input.ErrorMessage
    Severity := severity
    SourceService := input.SourceService
    CorrelationID := input.CorrelationID
    DurationMs := input.DurationMs }

/-- `auditUseCase.CreateAuditLog`. -/
def UseCase.CreateAuditLog (env : Env) (st : State) (input : CreateAuditLogInput) :
    State × Option GoError :=
  let log := newAuditLog (env.newUUID st.uuids) (env.now st.clock) input
  Repository.CreateAuditLog env { st with uuids := st.uuids + 1, clock := st.clock + 1 } log

/-- The filter map literal of `auditUseCase.ListAuditLogs` (lines 108-122). -/
def listFilter (input : ListAuditLogsInput) : GoMap Value :=
  [ ("merchant_id", Value.str input.MerchantID),
    ("user_id", Value.str input.UserID),
    ("entity", Value.str input.Entity),
    ("entity_id", Value.str input.EntityID),
    ("action", Value.str input.Action),
    ("start_date", Value.time input.StartDate),
    ("end_date", Value.time input.EndDate),
    ("store_id", Value.str input.StoreID),
    ("severity", Value.str input.Severity),
    ("result", Value.str input.Result),
    ("source_service", Value.str input.SourceService),
    ("correlation_id", Value.str input.CorrelationID) ]

/-- `auditUseCase.ListAuditLogs`. -/
def UseCase.ListAuditLogs (env : Env) (input : ListAuditLogsInput) :
    Except GoError (List AuditLog × Int) :=
  Repository.ListAuditLogs env (listFilter input) input.Page input.PageSize

/-- The store query of a list call: the use case's filter through the
repository's filter construction. -/
def listQuery (input : ListAuditLogsInput) : GoMap Value := buildQuery (listFilter input)

/-! ## handler -/

/-- The gRPC `metadata.MD`: header name to its values. -/
abbrev MD := GoMap (List String)

/-- The call context as the handlers see it: `metadata.FromIncomingContext`,
`none` when the context carries no incoming metadata. -/
structure Context where
  md : Option MD
deriving DecidableEq, Repr

/-- `md.Get(k)`: the values of header `k`, empty when there are none. -/
def MD.Get (md : MD) (k : String) : List String := (GoMap.get md k).getD []

/-- The pattern `if val := md.Get(k); len(val) > 0 { x = val[0] }` on `x = ""`,
inside `if md, ok := metadata.FromIncomingContext(ctx); ok`. -/
def Context.first (ctx : Context) (k : String) : String :=
  match ctx.md with
  | some md =>
    match MD.Get md k with
    | v :: _ => v
    | [] => ""
  | none => ""

/-- The fields of `auditv1.CreateAuditLogRequest` that the handler reads;
the three structs are `*structpb.Struct` after `AsMap`, `none` for nil. -/
structure CreateAuditLogRequest where
  Action : String
  Entity : String
  EntityId : String
  Details : Dyn
  StoreId : String
  SessionId : String
  OldValue : Dyn
  NewValue : Dyn
  Result : String
  ErrorMessage : String
  Severity : String
  SourceService : String
  CorrelationId : String
  DurationMs : Int
deriving DecidableEq, Repr

/-- The fields of `auditv1.ListAuditLogsRequest` that the handler reads; the
two dates are `*timestamppb.Timestamp` after `AsTime`, `none` for nil. -/
structure ListAuditLogsRequest where
  UserId : String
  Entity : String
  EntityId : String
  Action : String
  Page : Int
  PageSize : Int
  StoreId : String
  Severity : String
  Result : String
  SourceService : String
  CorrelationId : String
  StartDate : Option Time
  EndDate : Option Time
deriving DecidableEq, Repr

/-- The gRPC status codes used. -/
inductive Code where
  | OK
  | Internal
deriving DecidableEq, Repr

/-- The value of `status.Error(code, msg)`. -/
structure Status where
  code : Code
  msg : String
deriving DecidableEq, Repr

/-- The Go value `emptypb.Empty`. -/
structure Empty where
deriving DecidableEq, Repr

/-- The Go struct `timestamppb.Timestamp`: seconds and nanoseconds since the Unix epoch. -/
structure Timestamp where
  Seconds : Int
  Nanos : Int
deriving DecidableEq, Repr

/-- `timestamppb.New(t)`: `t.Unix()` and `t.Nanosecond()`; the Unix epoch is
62135596800 seconds after January 1, year 1. -/
def timestamppbNew (t : Time) : Timestamp := ⟨t.sec - 62135596800, t.nsec⟩

/-- The Go struct `auditv1.AuditLog` of the response; the three structs are
`*structpb.Struct`, `none` for nil. -/
structure ProtoAuditLog where
  Id : String
  MerchantId : String
  UserId : String
  Action : String
  Entity : String
  EntityId : String
  Details : Dyn
  IpAddress : String
  UserAgent : String
  Timestamp : Timestamp
  StoreId : String
  SessionId : String
  OldValue : Dyn
  NewValue : Dyn
  Result : String
  ErrorMessage : String
  Severity : String
  SourceService : String
  CorrelationId : String
  DurationMs : Int
deriving DecidableEq, Repr

/-- The Go struct `auditv1.ListAuditLogsResponse`. -/
structure ListAuditLogsResponse where
  Logs : List ProtoAuditLog
  Total : Int
deriving DecidableEq, Repr

/-- The pattern `details, _ := structpb.NewStruct(m)`: the struct, or nil when
`NewStruct` fails, the error being discarded. -/
def newStructOrNil (env : Env) (m : Dyn) : Dyn :=
  match env.newStruct m with
  | .ok fields => some fields
  | .error _ => none

/-- The body of the response loop of `AuditHandler.ListAuditLogs` (lines 139-165):
one stored record to one response record. -/
def toProtoLog (env : Env) (l : AuditLog) : ProtoAuditLog :=
  { Id := l.ID
    MerchantId := l.MerchantID
    UserId := l.UserID
    Action := l.Action
    Entity := l.Entity
    EntityId := l.EntityID
    Details := newStructOrNil env l.Details
    IpAddress := l.IPAddress
    UserAgent := l.UserAgent
    Timestamp := timestamppbNew l.Timestamp
    StoreId := l.StoreID
    SessionId := l.SessionID
    OldValue := newStructOrNil env l.OldValue
    NewValue := newStructOrNil env l.NewValue
    Result := l.Result
    ErrorMessage := l.ErrorMessage
    Severity := l.Severity
    SourceService := l.SourceService
    CorrelationId := l.CorrelationID
    DurationMs := l.DurationMs }

/-- The input built by `AuditHandler.CreateAuditLog` (lines 35-89). -/
def createInput (ctx : Context) (req : CreateAuditLogRequest) : CreateAuditLogInput :=
  { MerchantID := ctx.first "x-merchant-id"
    UserID := ctx.first "x-user-id"
    Action := req.Action
    Entity := req.Entity
    EntityID := req.EntityId
    Details := some (req.Details.getD [])
    IPAddress := ctx.first "x-forwarded-for"
    UserAgent := ctx.first "user-agent"
    StoreID := req.StoreId
    SessionID := req.SessionId
    OldValue := some (req.OldValue.getD [])
    NewValue := some (req.NewValue.getD [])
    Result := req.Result
    ErrorMessage := req.ErrorMessage
    Severity := req.Severity
    SourceService := req.SourceService
    CorrelationID := req.CorrelationId
    DurationMs := req.DurationMs }

/-- `AuditHandler.CreateAuditLog`: the pair `(*emptypb.Empty, error)`. -/
def Handler.CreateAuditLog (env : Env) (st : State) (ctx : Context) (req : CreateAuditLogRequest) :
    State × Option Empty × Option Status :=
  match UseCase.CreateAuditLog env st (createInput ctx req) with
  | (st', some _) =>
    (st'.log Level.error "Failed to create audit log", none,
      some ⟨Code.Internal, "failed to create audit log"⟩)
  | (st', none) => (st', some {}, none)

/-- The input built by `AuditHandler.ListAuditLogs` (lines 101-129). -/
def listInput (ctx : Context) (req : ListAuditLogsRequest) : ListAuditLogsInput :=
  { MerchantID := ctx.first "x-merchant-id"
    UserID := req.UserId
    Entity := req.Entity
    EntityID := req.EntityId
    Action := req.Action
    StartDate := req.StartDate.getD Time.zero
    EndDate := req.EndDate.getD Time.zero
    Page := req.Page
    PageSize := req.PageSize
    StoreID := req.StoreId
    Severity := req.Severity
    Result := req.Result
    SourceService := req.SourceService
    CorrelationID := req.CorrelationId }

/-- `AuditHandler.ListAuditLogs`: the pair `(*ListAuditLogsResponse, error)`. -/
def Handler.ListAuditLogs (env : Env) (st : State) (ctx : Context) (req : ListAuditLogsRequest) :
    State × Option ListAuditLogsResponse × Option Status :=
  match UseCase.ListAuditLogs env (listInput ctx req) with
  | .error _ =>
    (st.log Level.error "Failed to list audit logs", none,
      some ⟨Code.Internal, "failed to list audit logs"⟩)
  | .ok (logs, total) => (st, some ⟨logs.map (toProtoLog env), total⟩, none)

/-- The store query a list call issues: handler, use case, repository. -/
def handlerQuery (ctx : Context) (req : ListAuditLogsRequest) : GoMap Value :=
  listQuery (listInput ctx req)

/-! ## listener -/

/-- The input built by `AuditListener.processMessage` (lines 99-119). -/
def eventInput (event : AuditEvent) : CreateAuditLogInput :=
  { MerchantID := event.Payload.MerchantID
    UserID := event.Payload.UserID
    Action := event.Payload.Action
    Entity := event.Payload.EntityType
    EntityID := event.Payload.EntityID
    Details := event.Payload.Details
    IPAddress := event.Payload.IPAddress
    UserAgent := event.Payload.UserAgent
    StoreID := event.Payload.StoreID
    SessionID := event.Payload.SessionID
    OldValue := event.Payload.OldValue
    NewValue := event.Payload.NewValue
    Result := event.Payload.Result
    ErrorMessage := event.Payload.ErrorMessage
    Severity := event.Payload.Severity
    SourceService := event.SourceService
    CorrelationID := event.Payload.CorrelationID
    DurationMs := event.Payload.DurationMs }

/-- `AuditListener.processMessage`: it has no result; the state after it is returned. -/
def processMessage (env : Env) (st : State) (value : List UInt8) : State :=
  match env.unmarshal value with
  | .error _ => st.log Level.error "Failed to unmarshal audit event"
  | .ok event =>
    let st1 := st.log Level.info "Processing audit event"
    match UseCase.CreateAuditLog env st1 (eventInput event) with
    | (st2, some _) => st2.log Level.error "Failed to create audit log from event"
    | (st2, none) => st2.log Level.info "Audit log created from Kafka event"

/-- What one iteration of the `Start` loop observes: whether `ctx.Done()` is
ready at the `select`, else the result of `ReadMessage`, and on a read error
whether `ctx.Err()` is non-nil. -/
inductive Turn where
  | done
  | message (value : List UInt8)
  | readError (err : GoError) (ctxErr : Bool)
deriving DecidableEq, Repr

/-- Whether `Start` has returned. -/
inductive Loop where
  | Running
  | Stopped
deriving DecidableEq, Repr

/-- The `for` loop of `AuditListener.Start` over the iterations observed so far:
`Stopped` when `Start` returned, `Running` when it is about to iterate again. -/
def runLoop (env : Env) : List Turn → State → State × Loop
  | [], st => (st, Loop.Running)
  | Turn.done :: _, st => (st.log Level.info "Stopping Audit Kafka Listener", Loop.Stopped)
  | Turn.readError _ true :: _, st => (st, Loop.Stopped)
  | Turn.readError _ false :: rest, st =>
    runLoop env rest { st.log Level.error "Failed to read kafka message" with slept := st.slept + 1 }
  | Turn.message value :: rest, st => runLoop env rest (processMessage env st value)

/-- `AuditListener.Start`. -/
def Start (env : Env) (turns : List Turn) (st : State) : State × Loop :=
  runLoop env turns (st.log Level.info "Starting Audit Kafka Listener")

/-! ## Statement vocabulary and sample values -/

/-- The non-zero date a filter carries under key `k`: the type assertion
`filter[k].(time.Time)` succeeds and the time is not `IsZero`. -/
def dateOf (filter : GoMap Value) (k : String) : Option Time :=
  match GoMap.get filter k with
  | some (Value.time t) => if t.IsZero then none else some t
  | _ => none

/-- The keys whose string criterion is non-empty, in the order of the filter literal. -/
def stringKeys (input : ListAuditLogsInput) : List String :=
  ([ ("merchant_id", input.MerchantID), ("user_id", input.UserID), ("entity", input.Entity),
     ("entity_id", input.EntityID), ("action", input.Action), ("store_id", input.StoreID),
     ("severity", input.Severity), ("result", input.Result),
     ("source_service", input.SourceService), ("correlation_id", input.CorrelationID) ].filter
    (fun kv => kv.2 ≠ "")).map Prod.fst

/-- The enumerated values of `result`. -/
def resultValues : List String := ["success", "failure", "partial"]

/-- The enumerated values of `severity`. -/
def severityValues : List String := ["info", "warning", "critical"]

/-- A list input with every string criterion empty and both dates zero. -/
def emptyListInput : ListAuditLogsInput :=
  { MerchantID := "", UserID := "", Entity := "", EntityID := "", Action := "",
    StartDate := Time.zero, EndDate := Time.zero, Page := 1, PageSize := 10,
    StoreID := "", Severity := "", Result := "", SourceService := "", CorrelationID := "" }

/-- A list request with every field at its zero value. -/
def emptyListRequest : ListAuditLogsRequest :=
  { UserId := "", Entity := "", EntityId := "", Action := "", Page := 1, PageSize := 10,
    StoreId := "", Severity := "", Result := "", SourceService := "", CorrelationId := "",
    StartDate := none, EndDate := none }

/-- A create input with every field at its zero value. -/
def emptyCreateInput : CreateAuditLogInput :=
  { MerchantID := "", UserID := "", Action := "", Entity := "", EntityID := "", Details := none,
    IPAddress := "", UserAgent := "", StoreID := "", SessionID := "", OldValue := none,
    NewValue := none, Result := "", ErrorMessage := "", Severity := "", SourceService := "",
    CorrelationID := "", DurationMs := 0 }

/-- A create request with every field at its zero value. -/
def emptyCreateRequest : CreateAuditLogRequest :=
  { Action := "", Entity := "", EntityId := "", Details := none, StoreId := "", SessionId := "",
    OldValue := none, NewValue := none, Result := "", ErrorMessage := "", Severity := "",
    SourceService := "", CorrelationId := "", DurationMs := 0 }

/-- A payload with every field at its zero value. -/
def emptyPayload : AuditPayload :=
  { MerchantID := "", UserID := "", Action := "", EntityType := "", EntityID := "", Details := none,
    IPAddress := "", UserAgent := "", StoreID := "", SessionID := "", OldValue := none,
    NewValue := none, Result := "", ErrorMessage := "", Severity := "", CorrelationID := "",
    DurationMs := 0 }

/-- An event from service `S1` about a login. -/
def sampleEvent : AuditEvent :=
  { EventID := "e1", EventType := "audit", SourceService := "S1",
    Payload := { emptyPayload with MerchantID := "m1", Action := "login" },
    Timestamp := ⟨63900000000, 0⟩ }

/-- A sample world: the bytes `{}` decode to `sampleEvent`, every other message
is malformed; the mongo insert number `n` fails exactly when `n` is odd. -/
def sampleEnv : Env :=
  { newUUID := fun n => "uuid-" ++ toString n
    now := fun n => ⟨63900000000 + n, 0⟩
    insertOne := fun n _ => if n % 2 = 0 then none else some "mongo: connection refused"
    find := fun _ _ => .ok []
    countDocuments := fun _ => .ok 0
    unmarshal := fun value =>
      if value = [123, 125] then .ok sampleEvent else .error "invalid character"
    newStruct := fun m => .ok (m.getD []) }

/-- A state in which one insert has been attempted, so that the next one fails
in `sampleEnv`. -/
def oneInsertState : State :=
  (UseCase.CreateAuditLog sampleEnv State.init emptyCreateInput).1

/-- The state with its log output dropped: what the store, the oracles and the
sleeps have seen. -/
def State.eraseLogs (st : State) : State := { st with logs := [] }

/-- The record that a create call in state `st` hands to the store. -/
def State.nextLog (env : Env) (st : State) (input : CreateAuditLogInput) : AuditLog :=
  newAuditLog (env.newUUID st.uuids) (env.now st.clock) input

/-- Whether the iteration observes a cancelled context: `ctx.Done()` ready at
the `select`, or a read error with `ctx.Err()` non-nil. -/
def Turn.cancelled : Turn → Bool
  | Turn.done => true
  | Turn.readError _ ctxErr => ctxErr
  | Turn.message _ => false

/-- The iterations of a run of read errors, each seen with the context not cancelled. -/
def readErrors (errs : List GoError) : List Turn :=
  errs.map (fun err => Turn.readError err false)

/-- The log line written on a read error. -/
def readErrorLine : LogLine := ⟨Level.error, "Failed to read kafka message"⟩

/-! ## Map lemmas -/

theorem GoMap.get_set_same {α : Type} (m : GoMap α) (k : String) (v : α) :
    GoMap.get (GoMap.set m k v) k = some v := by
  induction m with
  | nil => simp [GoMap.set, GoMap.get]
  | cons p rest ih =>
    obtain ⟨k', v'⟩ := p
    by_cases h : k' = k
    · simp [GoMap.set, GoMap.get, h]
    · simp [GoMap.set, GoMap.get, h, ih]

theorem GoMap.get_set_ne {α : Type} (m : GoMap α) (k k' : String) (v : α) (h : k ≠ k') :
    GoMap.get (GoMap.set m k v) k' = GoMap.get m k' := by
  induction m with
  | nil => simp [GoMap.set, GoMap.get, h]
  | cons p rest ih =>
    obtain ⟨k0, v0⟩ := p
    by_cases h0 : k0 = k
    · subst h0
      simp [GoMap.set, GoMap.get, h]
    · by_cases h1 : k0 = k'
      · subst h1
        simp [GoMap.set, GoMap.get, h0]
      · simp [GoMap.set, GoMap.get, h0, h1, ih]

theorem GoMap.get_eq_none_of_not_mem {α : Type} (m : GoMap α) (k : String)
    (h : k ∉ GoMap.keys m) : GoMap.get m k = none := by
  induction m with
  | nil => rfl
  | cons p rest ih =>
    obtain ⟨k0, v0⟩ := p
    simp only [GoMap.keys, List.map_cons, List.mem_cons, not_or] at h
    have h0 : k0 ≠ k := fun e => h.1 e.symm
    simp only [GoMap.get, h0, if_false]
    exact ih h.2

/-- A key the filter does not carry is left as it was by the copy loop. -/
theorem get_copyNonEmpty_absent (filter query : GoMap Value) (k : String)
    (h : GoMap.get filter k = none) :
    GoMap.get (copyNonEmpty query filter) k = GoMap.get query k := by
  induction filter generalizing query with
  | nil => rfl
  | cons p rest ih =>
    obtain ⟨k0, v0⟩ := p
    by_cases h0 : k0 = k
    · simp [GoMap.get, h0] at h
    · simp only [GoMap.get, h0, if_false] at h
      simp only [copyNonEmpty, List.foldl_cons] at ih ⊢
      rw [ih _ h]
      split
      · exact GoMap.get_set_ne _ _ _ _ h0
      · rfl

/-- With distinct keys, the copy loop writes exactly the entries that are not `""`. -/
theorem get_copyNonEmpty (filter query : GoMap Value) (k : String)
    (hnd : (GoMap.keys filter).Nodup) :
    GoMap.get (copyNonEmpty query filter) k =
      match GoMap.get filter k with
      | some v => if v ≠ Value.str "" then some v else GoMap.get query k
      | none => GoMap.get query k := by
  induction filter generalizing query with
  | nil => rfl
  | cons p rest ih =>
    obtain ⟨k0, v0⟩ := p
    simp only [GoMap.keys, List.map_cons, List.nodup_cons] at hnd
    have hrest := ih (if v0 ≠ Value.str "" then GoMap.set query k0 v0 else query) hnd.2
    simp only [copyNonEmpty, List.foldl_cons] at hrest ⊢
    rw [hrest]
    by_cases h0 : k0 = k
    · subst h0
      rw [GoMap.get_eq_none_of_not_mem rest k0 hnd.1]
      simp only [GoMap.get, if_true]
      split
      · exact GoMap.get_set_same _ _ _
      · rfl
    · simp only [GoMap.get, h0, if_false]
      have hq : GoMap.get (if v0 ≠ Value.str "" then GoMap.set query k0 v0 else query) k
          = GoMap.get query k := by
        split
        · exact GoMap.get_set_ne _ _ _ _ h0
        · rfl
      rw [hq]

/-- The two date steps write no key other than `timestamp`. -/
theorem get_buildQuery_of_ne (filter : GoMap Value) (k : String) (hk : k ≠ "timestamp") :
    GoMap.get (buildQuery filter) k = GoMap.get (copyNonEmpty [] filter) k := by
  have hk' : "timestamp" ≠ k := fun e => hk e.symm
  have hs : ∀ q, GoMap.get (applyStart filter q) k = GoMap.get q k := by
    intro q
    unfold applyStart
    split
    · split
      · exact GoMap.get_set_ne _ _ _ _ hk'
      · rfl
    · rfl
  have he : ∀ q, GoMap.get (applyEnd filter q) k = GoMap.get q k := by
    intro q
    unfold applyEnd
    split
    · split
      · split
        · exact GoMap.get_set_ne _ _ _ _ hk'
        · exact GoMap.get_set_ne _ _ _ _ hk'
      · rfl
    · rfl
  unfold buildQuery
  rw [he, hs]

/-! ## The list query -/

theorem listFilter_keys_nodup (input : ListAuditLogsInput) :
    (GoMap.keys (listFilter input)).Nodup := by
  simp [listFilter, GoMap.keys]

theorem listFilter_no_timestamp (input : ListAuditLogsInput) :
    GoMap.get (listFilter input) "timestamp" = none := by
  simp [listFilter, GoMap.get]

theorem applyStart_eq (filter query : GoMap Value) :
    applyStart filter query =
      match dateOf filter "start_date" with
      | some s => GoMap.set query "timestamp" (Value.doc [("$gte", Atom.time s)])
      | none => query := by
  unfold applyStart dateOf
  cases GoMap.get filter "start_date" with
  | none => rfl
  | some v =>
    cases v with
    | time t => cases ht : t.IsZero <;> simp [ht]
    | _ => rfl

theorem applyEnd_eq (filter query : GoMap Value) :
    applyEnd filter query =
      match dateOf filter "end_date" with
      | some e =>
        match GoMap.get query "timestamp" with
        | some (Value.doc val) =>
          GoMap.set query "timestamp" (Value.doc (GoMap.set val "$lte" (Atom.time e)))
        | _ => GoMap.set query "timestamp" (Value.doc [("$lte", Atom.time e)])
      | none => query := by
  unfold applyEnd dateOf
  cases GoMap.get filter "end_date" with
  | none => rfl
  | some v =>
    cases v with
    | time t => cases ht : t.IsZero <;> simp [ht]
    | _ => rfl

/-- The `timestamp` entry of the built query, for a filter without a `timestamp`
key of its own. -/
theorem get_buildQuery_timestamp (filter : GoMap Value)
    (h : GoMap.get filter "timestamp" = none) :
    GoMap.get (buildQuery filter) "timestamp" =
      match dateOf filter "start_date", dateOf filter "end_date" with
      | some s, some e => some (Value.doc [("$gte", Atom.time s), ("$lte", Atom.time e)])
      | some s, none => some (Value.doc [("$gte", Atom.time s)])
      | none, some e => some (Value.doc [("$lte", Atom.time e)])
      | none, none => none := by
  have h0 : GoMap.get (copyNonEmpty [] filter) "timestamp" = none := by
    rw [get_copyNonEmpty_absent filter [] "timestamp" h]
    rfl
  unfold buildQuery
  rw [applyEnd_eq, applyStart_eq]
  cases dateOf filter "start_date" <;> cases dateOf filter "end_date" <;>
    simp [h0, GoMap.get_set_same, GoMap.set]

theorem get_listQuery_of_ne (input : ListAuditLogsInput) (k : String) (hk : k ≠ "timestamp") :
    GoMap.get (listQuery input) k =
      match GoMap.get (listFilter input) k with
      | some v => if v ≠ Value.str "" then some v else none
      | none => none := by
  unfold listQuery
  rw [get_buildQuery_of_ne _ _ hk, get_copyNonEmpty _ _ _ (listFilter_keys_nodup input)]
  rfl

theorem mem_stringKeys (input : ListAuditLogsInput) (k : String) :
    k ∈ stringKeys input ↔
      (k = "merchant_id" ∧ input.MerchantID ≠ "") ∨ (k = "user_id" ∧ input.UserID ≠ "") ∨
      (k = "entity" ∧ input.Entity ≠ "") ∨ (k = "entity_id" ∧ input.EntityID ≠ "") ∨
      (k = "action" ∧ input.Action ≠ "") ∨ (k = "store_id" ∧ input.StoreID ≠ "") ∨
      (k = "severity" ∧ input.Severity ≠ "") ∨ (k = "result" ∧ input.Result ≠ "") ∨
      (k = "source_service" ∧ input.SourceService ≠ "") ∨
      (k = "correlation_id" ∧ input.CorrelationID ≠ "") := by
  simp only [stringKeys, List.mem_map, List.mem_filter, List.mem_cons, List.mem_singleton,
    List.mem_nil_iff, or_false, Prod.exists, Prod.mk.injEq, decide_eq_true_eq]
  constructor
  · rintro ⟨a, b, ⟨h, hb⟩, rfl⟩
    rcases h with h | h | h | h | h | h | h | h | h | h <;> obtain ⟨rfl, rfl⟩ := h <;> simp [hb]
  · intro h
    rcases h with h | h | h | h | h | h | h | h | h | h <;> obtain ⟨rfl, hb⟩ := h <;>
      exact ⟨_, _, ⟨by simp, hb⟩, rfl⟩

/-- What the built list query constrains: the non-empty string criteria, always
`start_date` and `end_date`, and `timestamp` when a date is non-zero. -/
theorem listQuery_constrains_iff (input : ListAuditLogsInput) (k : String) :
    (GoMap.get (listQuery input) k).isSome ↔
      k ∈ stringKeys input ∨ k = "start_date" ∨ k = "end_date" ∨
        (k = "timestamp" ∧ (input.StartDate.IsZero = false ∨ input.EndDate.IsZero = false)) := by
  rw [mem_stringKeys]
  by_cases hk : k = "timestamp"
  · subst hk
    unfold listQuery
    rw [get_buildQuery_timestamp _ (listFilter_no_timestamp input)]
    cases hs : input.StartDate.IsZero <;> cases he : input.EndDate.IsZero <;>
      simp [dateOf, listFilter, GoMap.get, hs, he]
  · rw [get_listQuery_of_ne input k hk]
    by_cases h0 : k = "merchant_id"
    · subst h0
      simp [listFilter, GoMap.get]
    by_cases h1 : k = "user_id"
    · subst h1
      simp [listFilter, GoMap.get]
    by_cases h2 : k = "entity"
    · subst h2
      simp [listFilter, GoMap.get]
    by_cases h3 : k = "entity_id"
    · subst h3
      simp [listFilter, GoMap.get]
    by_cases h4 : k = "action"
    · subst h4
      simp [listFilter, GoMap.get]
    by_cases h5 : k = "start_date"
    · subst h5
      simp [listFilter, GoMap.get]
    by_cases h6 : k = "end_date"
    · subst h6
      simp [listFilter, GoMap.get]
    by_cases h7 : k = "store_id"
    · subst h7
      simp [listFilter, GoMap.get]
    by_cases h8 : k = "severity"
    · subst h8
      simp [listFilter, GoMap.get]
    by_cases h9 : k = "result"
    · subst h9
      simp [listFilter, GoMap.get]
    by_cases h10 : k = "source_service"
    · subst h10
      simp [listFilter, GoMap.get]
    by_cases h11 : k = "correlation_id"
    · subst h11
      simp [listFilter, GoMap.get]
    simp [listFilter, GoMap.get, hk, h0, Ne.symm h0, h1, Ne.symm h1, h2, Ne.symm h2, h3, Ne.symm h3, h4, Ne.symm h4, h5, Ne.symm h5, h6, Ne.symm h6, h7, Ne.symm h7, h8, Ne.symm h8, h9, Ne.symm h9, h10, Ne.symm h10, h11, Ne.symm h11]

theorem wrap32_of_isInt32 (x : Int) (h : isInt32 x) : wrap32 x = x := by
  unfold isInt32 at h
  unfold wrap32
  omega

/-- Where the 32-bit product does not overflow, the find is issued with the
exact skip; the limit and the sort never depend on that. -/
theorem findOptions_of_fits (page pageSize : Int) (hp : isInt32 page) (h1 : 1 ≤ page)
    (hfit : isInt32 ((page - 1) * pageSize)) :
    findOptions page pageSize =
      { skip := (page - 1) * pageSize, limit := pageSize, sort := [("timestamp", -1)] } := by
  have hp1 : isInt32 (page - 1) := by
    unfold isInt32 at hp ⊢
    omega
  simp only [findOptions, wrap32_of_isInt32 _ hp1, wrap32_of_isInt32 _ hfit]

/-- The `merchant_id` entry of the query of a list call: the first
`x-merchant-id` value when that is a non-empty string, and none otherwise;
the request plays no part. -/
theorem get_handlerQuery_merchant (ctx : Context) (req : ListAuditLogsRequest) :
    GoMap.get (handlerQuery ctx req) "merchant_id" =
      if ctx.first "x-merchant-id" = "" then none
      else some (Value.str (ctx.first "x-merchant-id")) := by
  unfold handlerQuery
  rw [get_listQuery_of_ne _ _ (by decide)]
  by_cases h : ctx.first "x-merchant-id" = "" <;> simp [listFilter, listInput, GoMap.get, h]

/-! ## Claims -/

/-- C1 (fails on the code): the store query of the list input with every string
criterion empty and both dates zero is not empty; it carries the two zero dates
under `start_date` and `end_date`, because a `time.Time` is never equal to `""`. -/
theorem listQuery_empty_input :
    listQuery emptyListInput =
        [("start_date", Value.time Time.zero), ("end_date", Value.time Time.zero)] ∧
      listQuery emptyListInput ≠ [] ∧
      stringKeys emptyListInput = [] ∧
      emptyListInput.StartDate.IsZero = true ∧ emptyListInput.EndDate.IsZero = true := by
  decide

/-- C2: the record handed to the store by `CreateAuditLog` has result `success`
when the input result is empty and the input result otherwise, and severity
`info` when the input severity is empty and the input severity otherwise. -/
theorem createAuditLog_defaults (env : Env) (st : State) (input : CreateAuditLogInput) :
    ∃ log : AuditLog,
      (UseCase.CreateAuditLog env st input).1.inserts = st.inserts ++ [log] ∧
      log.Result = (if input.Result = "" then "success" else input.Result) ∧
      log.Severity = (if input.Severity = "" then "info" else input.Severity) :=
  ⟨newAuditLog (env.newUUID st.uuids) (env.now st.clock) input, rfl, rfl, rfl⟩

/-- C3 (fails on the code): an input with result `bogus` and severity `loud`
reaches the store with these two strings, neither of them one of the values
that the comments on the record's fields list. -/
theorem createAuditLog_unvalidated :
    ∃ log : AuditLog,
      (UseCase.CreateAuditLog sampleEnv State.init
          { emptyCreateInput with Result := "bogus", Severity := "loud" }).1.inserts = [log] ∧
      log.Result = "bogus" ∧ log.Result ∉ resultValues ∧
      log.Severity = "loud" ∧ log.Severity ∉ severityValues :=
  ⟨_, rfl, rfl, by decide, rfl, by decide⟩

/-- What the use case does in place of a validation: a non-empty result or
severity is stored verbatim, so the stored result is among success, failure,
partial exactly when the input result is empty or one of these, and the stored
severity among info, warning, critical exactly when the input severity is
empty or one of these. -/
theorem createAuditLog_enumerated_iff (env : Env) (st : State) (input : CreateAuditLogInput) :
    ∃ log : AuditLog,
      (UseCase.CreateAuditLog env st input).1.inserts = st.inserts ++ [log] ∧
      (input.Result ≠ "" → log.Result = input.Result) ∧
      (input.Severity ≠ "" → log.Severity = input.Severity) ∧
      (log.Result ∈ resultValues ↔ input.Result = "" ∨ input.Result ∈ resultValues) ∧
      (log.Severity ∈ severityValues ↔ input.Severity = "" ∨ input.Severity ∈ severityValues) := by
  refine ⟨newAuditLog (env.newUUID st.uuids) (env.now st.clock) input, rfl, ?_, ?_, ?_, ?_⟩
  · intro h
    simp [newAuditLog, h]
  · intro h
    simp [newAuditLog, h]
  · by_cases h : input.Result = "" <;> simp [newAuditLog, resultValues, h]
  · by_cases h : input.Severity = "" <;> simp [newAuditLog, severityValues, h]

/-- C4 (as stated, false): a filter that carries a `timestamp` entry of its own
and no date keeps that entry as the `timestamp` constraint, where the claim
says there is none; and with only an end date a `timestamp` document of the
filter is extended to `{$gt: 5, $lte: end}`, where the claim says `{$lte: end}`. -/
theorem buildQuery_own_timestamp :
    (dateOf [("timestamp", Value.str "x")] "start_date" = none ∧
      dateOf [("timestamp", Value.str "x")] "end_date" = none ∧
      GoMap.get (buildQuery [("timestamp", Value.str "x")]) "timestamp" = some (Value.str "x") ∧
      GoMap.get (buildQuery [("timestamp", Value.str "x")]) "timestamp" ≠ none) ∧
    (dateOf [("timestamp", Value.doc [("$gt", Atom.int 5)]), ("end_date", Value.time ⟨9, 0⟩)]
        "start_date" = none ∧
      dateOf [("timestamp", Value.doc [("$gt", Atom.int 5)]), ("end_date", Value.time ⟨9, 0⟩)]
        "end_date" = some ⟨9, 0⟩ ∧
      GoMap.get
          (buildQuery [("timestamp", Value.doc [("$gt", Atom.int 5)]), ("end_date", Value.time ⟨9, 0⟩)])
          "timestamp" =
        some (Value.doc [("$gt", Atom.int 5), ("$lte", Atom.time ⟨9, 0⟩)]) ∧
      GoMap.get
          (buildQuery [("timestamp", Value.doc [("$gt", Atom.int 5)]), ("end_date", Value.time ⟨9, 0⟩)])
          "timestamp" ≠
        some (Value.doc [("$lte", Atom.time ⟨9, 0⟩)])) := by
  decide

/-- C4 (amended): for every filter that has no `timestamp` key of its own, and
so for the filter of every list input, the `timestamp` constraint of the built
query is `{$gte: start}` when only the start date is non-zero, `{$lte: end}`
when only the end date is non-zero, `{$gte: start, $lte: end}` when both are,
and absent when both are zero; when the start date is non-zero this holds for
every filter whatsoever. -/
theorem buildQuery_timestamp :
    (∀ input : ListAuditLogsInput,
      GoMap.get (buildQuery (listFilter input)) "timestamp" =
        match input.StartDate.IsZero, input.EndDate.IsZero with
        | false, false =>
          some (Value.doc [("$gte", Atom.time input.StartDate), ("$lte", Atom.time input.EndDate)])
        | false, true => some (Value.doc [("$gte", Atom.time input.StartDate)])
        | true, false => some (Value.doc [("$lte", Atom.time input.EndDate)])
        | true, true => none) ∧
      (∀ filter : GoMap Value, GoMap.get filter "timestamp" = none →
        GoMap.get (buildQuery filter) "timestamp" =
          match dateOf filter "start_date", dateOf filter "end_date" with
          | some s, some e => some (Value.doc [("$gte", Atom.time s), ("$lte", Atom.time e)])
          | some s, none => some (Value.doc [("$gte", Atom.time s)])
          | none, some e => some (Value.doc [("$lte", Atom.time e)])
          | none, none => none) ∧
      ∀ (filter : GoMap Value) (s : Time), dateOf filter "start_date" = some s →
        GoMap.get (buildQuery filter) "timestamp" =
          match dateOf filter "end_date" with
          | some e => some (Value.doc [("$gte", Atom.time s), ("$lte", Atom.time e)])
          | none => some (Value.doc [("$gte", Atom.time s)]) := by
  refine ⟨fun input => ?_, get_buildQuery_timestamp, fun filter s hs => ?_⟩
  · rw [get_buildQuery_timestamp _ (listFilter_no_timestamp input)]
    cases hs : input.StartDate.IsZero <;> cases he : input.EndDate.IsZero <;>
      simp [dateOf, listFilter, GoMap.get, hs, he]
  · unfold buildQuery
    rw [applyEnd_eq, applyStart_eq, hs]
    cases dateOf filter "end_date" <;> simp [GoMap.get_set_same, GoMap.set]

/-- Witness of C4: a filter map with only an end date and no `timestamp` key,
and a filter map with a start date next to a `timestamp` entry of its own. -/
theorem buildQuery_timestamp_witness :
    (GoMap.get [("severity", Value.str "critical"), ("end_date", Value.time ⟨9, 0⟩)] "timestamp"
        = none ∧
      GoMap.get (buildQuery [("severity", Value.str "critical"), ("end_date", Value.time ⟨9, 0⟩)])
        "timestamp" = some (Value.doc [("$lte", Atom.time ⟨9, 0⟩)])) ∧
    (dateOf [("timestamp", Value.str "x"), ("start_date", Value.time ⟨5, 0⟩)] "start_date"
        = some ⟨5, 0⟩ ∧
      GoMap.get (buildQuery [("timestamp", Value.str "x"), ("start_date", Value.time ⟨5, 0⟩)])
        "timestamp" = some (Value.doc [("$gte", Atom.time ⟨5, 0⟩)])) :=
  ⟨⟨rfl, buildQuery_timestamp.2.1 _ rfl⟩, ⟨rfl, buildQuery_timestamp.2.2 _ _ rfl⟩⟩

/-- C5 (fails on the code): page 65537 with page size 65536, both valid 32-bit
values with page at least 1 and page size positive, is issued with skip 0 and
not with the exact product 4294967296: the product is taken in 32 bits before
the conversion to 64 bits. -/
theorem findOptions_skip_overflow :
    isInt32 65537 ∧ isInt32 65536 ∧ (1 : Int) ≤ 65537 ∧ (0 : Int) < 65536 ∧
      (findOptions 65537 65536).skip = 0 ∧ ((65537 - 1) * 65536 : Int) = 4294967296 ∧
      (findOptions 65537 65536).skip ≠ (65537 - 1) * 65536 := by
  decide

/-- C6 (fails on the code): a list call whose context carries no incoming
metadata issues, for every request, a query without a `merchant_id` constraint. -/
theorem handlerQuery_without_metadata (req : ListAuditLogsRequest) :
    GoMap.get (handlerQuery ⟨none⟩ req) "merchant_id" = none ∧
      "merchant_id" ∉ GoMap.keys (handlerQuery ⟨none⟩ emptyListRequest) := by
  refine ⟨?_, by decide⟩
  rw [get_handlerQuery_merchant]
  rfl

/-! ## Ingestion -/

theorem useCase_createAuditLog_eq (env : Env) (st : State) (input : CreateAuditLogInput) :
    UseCase.CreateAuditLog env st input =
      ({ st with
          uuids := st.uuids + 1
          clock := st.clock + 1
          inserts := st.inserts ++ [st.nextLog env input]
          collection :=
            if (env.insertOne st.inserts.length (st.nextLog env input)).isNone then
              st.collection ++ [st.nextLog env input]
            else st.collection },
        env.insertOne st.inserts.length (st.nextLog env input)) := rfl

/-- A decodable message: one use-case call on the decoded input, then one log line. -/
theorem processMessage_of_ok (env : Env) (st : State) (value : List UInt8) (event : AuditEvent)
    (h : env.unmarshal value = .ok event) :
    processMessage env st value =
      (UseCase.CreateAuditLog env (st.log Level.info "Processing audit event")
          (eventInput event)).1.log
        (if (env.insertOne st.inserts.length (st.nextLog env (eventInput event))).isSome
          then Level.error else Level.info)
        (if (env.insertOne st.inserts.length (st.nextLog env (eventInput event))).isSome
          then "Failed to create audit log from event" else "Audit log created from Kafka event") := by
  unfold processMessage
  rw [h]
  simp only [useCase_createAuditLog_eq]
  cases hins : env.insertOne st.inserts.length (st.nextLog env (eventInput event)) <;>
    simp [State.log, State.nextLog] at hins ⊢ <;> simp [hins]

/-- An undecodable message: one error log line and nothing else. -/
theorem processMessage_of_error (env : Env) (st : State) (value : List UInt8) (err : GoError)
    (h : env.unmarshal value = .error err) :
    processMessage env st value = st.log Level.error "Failed to unmarshal audit event" := by
  unfold processMessage
  rw [h]

theorem eraseLogs_log (st : State) (level : Level) (msg : String) :
    (st.log level msg).eraseLogs = st.eraseLogs := rfl

theorem eraseLogs_eq_iff (s t : State) :
    s.eraseLogs = t.eraseLogs ↔
      s.uuids = t.uuids ∧ s.clock = t.clock ∧ s.inserts = t.inserts ∧
        s.collection = t.collection ∧ s.slept = t.slept := by
  cases s
  cases t
  simp [State.eraseLogs]

/-- The log output never feeds back into what `processMessage` does. -/
theorem processMessage_eraseLogs (env : Env) (s t : State) (value : List UInt8)
    (h : s.eraseLogs = t.eraseLogs) :
    (processMessage env s value).eraseLogs = (processMessage env t value).eraseLogs := by
  rw [eraseLogs_eq_iff] at h
  obtain ⟨h1, h2, h3, h4, h5⟩ := h
  cases hu : env.unmarshal value with
  | error err =>
    rw [processMessage_of_error env s value err hu, processMessage_of_error env t value err hu,
      eraseLogs_log, eraseLogs_log, eraseLogs_eq_iff]
    exact ⟨h1, h2, h3, h4, h5⟩
  | ok event =>
    rw [processMessage_of_ok env s value event hu, processMessage_of_ok env t value event hu,
      eraseLogs_log, eraseLogs_log, eraseLogs_eq_iff]
    simp [useCase_createAuditLog_eq, State.log, State.nextLog, h1, h2, h3, h4, h5]

/-- The log output never feeds back into what the loop does. -/
theorem runLoop_eraseLogs (env : Env) (turns : List Turn) (s t : State)
    (h : s.eraseLogs = t.eraseLogs) :
    (runLoop env turns s).1.eraseLogs = (runLoop env turns t).1.eraseLogs ∧
      (runLoop env turns s).2 = (runLoop env turns t).2 := by
  induction turns generalizing s t with
  | nil => exact ⟨h, rfl⟩
  | cons turn rest ih =>
    cases turn with
    | done => exact ⟨by simp only [runLoop, eraseLogs_log, h], rfl⟩
    | message value =>
      simp only [runLoop]
      exact ih _ _ (processMessage_eraseLogs env s t value h)
    | readError err ctxErr =>
      cases ctxErr with
      | true => exact ⟨h, rfl⟩
      | false =>
        simp only [runLoop]
        apply ih
        rw [eraseLogs_eq_iff] at h ⊢
        obtain ⟨h1, h2, h3, h4, h5⟩ := h
        simp [State.log, h1, h2, h3, h4, h5]

/-! ## Claims on ingestion -/

/-- C7: for a message that decodes into an event, `processMessage` makes one
use-case call, on an input whose `SourceService` is the envelope's field
whatever the payload is, and the record inserted carries that value. -/
theorem processMessage_source_service (env : Env) (st : State) (value : List UInt8)
    (event : AuditEvent) (h : env.unmarshal value = .ok event) :
    (processMessage env st value).inserts =
        (UseCase.CreateAuditLog env (st.log Level.info "Processing audit event")
          (eventInput event)).1.inserts ∧
      (∀ payload : AuditPayload,
        (eventInput { event with Payload := payload }).SourceService = event.SourceService) ∧
      ∃ log : AuditLog,
        (processMessage env st value).inserts = st.inserts ++ [log] ∧
        log.SourceService = event.SourceService := by
  rw [processMessage_of_ok env st value event h]
  exact ⟨rfl, fun _ => rfl, _, rfl, rfl⟩

/-- Witness of C7: the sample message in a fresh state. -/
theorem processMessage_source_service_witness :
    sampleEnv.unmarshal [123, 125] = .ok sampleEvent ∧
      ∃ log : AuditLog,
        (processMessage sampleEnv State.init [123, 125]).inserts = State.init.inserts ++ [log] ∧
        log.SourceService = sampleEvent.SourceService :=
  ⟨rfl, (processMessage_source_service sampleEnv State.init [123, 125] sampleEvent rfl).2.2⟩

/-- C8: `CreateAuditLog` always reaches the insert, its error is the insert's
error and nothing else, and every field of the inserted record other than id,
timestamp, result and severity is the input field. -/
theorem createAuditLog_frame (env : Env) (st : State) (input : CreateAuditLogInput) :
    ∃ log : AuditLog,
      (UseCase.CreateAuditLog env st input).1.inserts = st.inserts ++ [log] ∧
      (UseCase.CreateAuditLog env st input).2 = env.insertOne st.inserts.length log ∧
      log.MerchantID = input.MerchantID ∧ log.UserID = input.UserID ∧
      log.Action = input.Action ∧ log.Entity = input.Entity ∧
      log.EntityID = input.EntityID ∧ log.Details = input.Details ∧
      log.IPAddress = input.IPAddress ∧ log.UserAgent = input.UserAgent ∧
      log.StoreID = input.StoreID ∧ log.SessionID = input.SessionID ∧
      log.OldValue = input.OldValue ∧ log.NewValue = input.NewValue ∧
      log.ErrorMessage = input.ErrorMessage ∧ log.SourceService = input.SourceService ∧
      log.CorrelationID = input.CorrelationID ∧ log.DurationMs = input.DurationMs :=
  ⟨st.nextLog env input, rfl, rfl, rfl, rfl, rfl, rfl, rfl, rfl, rfl, rfl, rfl, rfl, rfl, rfl,
    rfl, rfl, rfl, rfl⟩

/-- C9: a message that fails to decode makes no use-case call and no insert
(only an error log line), leaves the loop running, and the loop then treats
the following messages as if the malformed one had not arrived: same final
state up to log output, same running or stopped outcome. -/
theorem processMessage_malformed (env : Env) (st : State) (value : List UInt8) (err : GoError)
    (h : env.unmarshal value = .error err) :
    processMessage env st value = st.log Level.error "Failed to unmarshal audit event" ∧
      (processMessage env st value).inserts = st.inserts ∧
      (processMessage env st value).collection = st.collection ∧
      (processMessage env st value).uuids = st.uuids ∧
      (processMessage env st value).clock = st.clock ∧
      (runLoop env [Turn.message value] st).2 = Loop.Running ∧
      ∀ rest : List Turn,
        (runLoop env (Turn.message value :: rest) st).1.eraseLogs =
            (runLoop env rest st).1.eraseLogs ∧
          (runLoop env (Turn.message value :: rest) st).2 = (runLoop env rest st).2 := by
  have hp := processMessage_of_error env st value err h
  refine ⟨hp, by rw [hp]; rfl, by rw [hp]; rfl, by rw [hp]; rfl, by rw [hp]; rfl, rfl, ?_⟩
  intro rest
  simp only [runLoop]
  exact runLoop_eraseLogs env rest _ _ (by rw [hp]; rfl)

/-- Witness of C9: a malformed message followed by the sample message. -/
theorem processMessage_malformed_witness :
    sampleEnv.unmarshal [110, 111] = .error "invalid character" ∧
      (processMessage sampleEnv State.init [110, 111]).inserts = [] ∧
      (runLoop sampleEnv [Turn.message [110, 111], Turn.message [123, 125]] State.init).1.eraseLogs =
        (runLoop sampleEnv [Turn.message [123, 125]] State.init).1.eraseLogs :=
  ⟨rfl, (processMessage_malformed sampleEnv State.init [110, 111] "invalid character" rfl).2.1,
    ((processMessage_malformed sampleEnv State.init [110, 111] "invalid character" rfl).2.2.2.2.2.2
      [Turn.message [123, 125]]).1⟩

/-- C10: a direct create call makes exactly one insert attempt; it returns no
value and the Internal error exactly when that insert fails, and the empty
response with no error when it succeeds. On the stream path a failed insert
is attempted once, stores nothing, and `processMessage` still returns with
the loop running. -/
theorem createAuditLog_store_error (env : Env) (st : State) (ctx : Context)
    (req : CreateAuditLogRequest) :
    (∃ log : AuditLog,
      (Handler.CreateAuditLog env st ctx req).1.inserts = st.inserts ++ [log] ∧
      (Handler.CreateAuditLog env st ctx req).2 =
        (if (env.insertOne st.inserts.length log).isSome
          then (none, some ⟨Code.Internal, "failed to create audit log"⟩)
          else (some {}, none)) ∧
      ((Handler.CreateAuditLog env st ctx req).2 =
          (none, some ⟨Code.Internal, "failed to create audit log"⟩) ↔
        (env.insertOne st.inserts.length log).isSome)) ∧
      ∀ (value : List UInt8) (event : AuditEvent) (e : GoError),
        env.unmarshal value = .ok event →
        env.insertOne st.inserts.length (st.nextLog env (eventInput event)) = some e →
        (processMessage env st value).inserts =
            st.inserts ++ [st.nextLog env (eventInput event)] ∧
          (processMessage env st value).collection = st.collection ∧
          (runLoop env [Turn.message value] st).2 = Loop.Running ∧
          ∀ rest : List Turn,
            runLoop env (Turn.message value :: rest) st =
              runLoop env rest (processMessage env st value) := by
  constructor
  · refine ⟨st.nextLog env (createInput ctx req), ?_⟩
    unfold Handler.CreateAuditLog
    rw [useCase_createAuditLog_eq]
    cases hins : env.insertOne st.inserts.length (st.nextLog env (createInput ctx req)) <;>
      simp [State.log]
  · intro value event e h hfail
    have hp := processMessage_of_ok env st value event h
    refine ⟨by rw [hp]; rfl, ?_, rfl, fun _ => rfl⟩
    rw [hp]
    simp [useCase_createAuditLog_eq, State.log, State.nextLog] at hfail ⊢
    simp [hfail]

/-- Witness of C10: in a state with one earlier insert the next insert of the
sample world fails, on the direct path and on the stream path alike. -/
theorem createAuditLog_store_error_witness :
    sampleEnv.unmarshal [123, 125] = .ok sampleEvent ∧
      sampleEnv.insertOne oneInsertState.inserts.length
          (oneInsertState.nextLog sampleEnv (eventInput sampleEvent)) =
        some "mongo: connection refused" ∧
      (processMessage sampleEnv oneInsertState [123, 125]).collection = oneInsertState.collection ∧
      (runLoop sampleEnv [Turn.message [123, 125]] oneInsertState).2 = Loop.Running :=
  ⟨rfl, rfl,
    ((createAuditLog_store_error sampleEnv oneInsertState ⟨none⟩ emptyCreateRequest).2
      [123, 125] sampleEvent "mongo: connection refused" rfl rfl).2.1,
    ((createAuditLog_store_error sampleEnv oneInsertState ⟨none⟩ emptyCreateRequest).2
      [123, 125] sampleEvent "mongo: connection refused" rfl rfl).2.2.1⟩

/-! ## The consumer loop -/

/-- The loop has returned exactly when some iteration observed a cancelled context. -/
theorem runLoop_stopped_iff (env : Env) (turns : List Turn) (st : State) :
    (runLoop env turns st).2 = Loop.Stopped ↔ turns.any Turn.cancelled = true := by
  induction turns generalizing st with
  | nil => simp [runLoop]
  | cons turn rest ih =>
    cases turn with
    | done => simp [runLoop, Turn.cancelled]
    | message value => simp [runLoop, Turn.cancelled, ih]
    | readError err ctxErr =>
      cases ctxErr with
      | true => simp [runLoop, Turn.cancelled]
      | false => simp [runLoop, Turn.cancelled, ih]

/-- While it is running, the loop goes on with the next iterations from the
state it has reached; once it has returned, later iterations do not exist. -/
theorem runLoop_append (env : Env) (pre rest : List Turn) (st : State) :
    runLoop env (pre ++ rest) st =
      if (runLoop env pre st).2 = Loop.Running then runLoop env rest (runLoop env pre st).1
      else runLoop env pre st := by
  induction pre generalizing st with
  | nil => simp [runLoop]
  | cons turn pre ih =>
    cases turn with
    | done => simp [runLoop]
    | message value => exact ih _
    | readError err ctxErr =>
      cases ctxErr with
      | true => simp [runLoop]
      | false => exact ih _

/-- A run of read errors with the context not cancelled: one error line and one
second of sleep for each, nothing else, and the loop still running. -/
theorem runLoop_readErrors (env : Env) (errs : List GoError) (st : State) :
    runLoop env (readErrors errs) st =
      ({ st with
          logs := st.logs ++ List.replicate errs.length readErrorLine
          slept := st.slept + errs.length },
        Loop.Running) := by
  induction errs generalizing st with
  | nil => simp [readErrors, runLoop]
  | cons err errs ih =>
    have hstep : runLoop env (readErrors (err :: errs)) st =
        runLoop env (readErrors errs)
          { st.log Level.error "Failed to read kafka message" with slept := st.slept + 1 } := rfl
    rw [hstep, ih]
    simp [State.log, readErrorLine, List.replicate_succ, Nat.add_assoc, Nat.add_comm 1]

/-- An iteration that observes a cancelled context ends the run: what would
come after it plays no part. -/
theorem runLoop_cancelled_cut (env : Env) (pre rest : List Turn) (turn : Turn) (st : State)
    (h : turn.cancelled = true) :
    runLoop env (pre ++ turn :: rest) st = runLoop env (pre ++ [turn]) st := by
  have hcut : ∀ s, runLoop env (turn :: rest) s = runLoop env [turn] s := by
    intro s
    cases turn with
    | done => rfl
    | message value => simp [Turn.cancelled] at h
    | readError err ctxErr =>
      simp only [Turn.cancelled] at h
      subst h
      rfl
  rw [runLoop_append env pre (turn :: rest), runLoop_append env pre [turn], hcut]

/-! ## Claim on the consumer loop -/

/-- C11: `Start` has returned exactly when some iteration observed a cancelled
context. Any number of consecutive read errors seen with the context not
cancelled, from any state of the loop, leave it running with one error line
and one second of sleep each and nothing else: no oracle call, no insert
attempt, no stored record; the loop then goes on with the next read. An
iteration check or a read error that observes a cancelled context makes
`Start` return, whatever would follow. -/
theorem start_stops_only_on_cancel (env : Env) (st : State) :
    (∀ turns : List Turn,
      (Start env turns st).2 = Loop.Stopped ↔ turns.any Turn.cancelled = true) ∧
    (∀ (s : State) (errs : List GoError),
      runLoop env (readErrors errs) s =
        ({ s with
            logs := s.logs ++ List.replicate errs.length readErrorLine
            slept := s.slept + errs.length },
          Loop.Running)) ∧
    (∀ errs : List GoError,
      (Start env (readErrors errs) st).2 = Loop.Running ∧
      (Start env (readErrors errs) st).1.inserts = st.inserts ∧
      (Start env (readErrors errs) st).1.collection = st.collection ∧
      (Start env (readErrors errs) st).1.uuids = st.uuids ∧
      (Start env (readErrors errs) st).1.clock = st.clock ∧
      (Start env (readErrors errs) st).1.slept = st.slept + errs.length) ∧
    (∀ (errs : List GoError) (rest : List Turn),
      Start env (readErrors errs ++ rest) st =
        runLoop env rest (Start env (readErrors errs) st).1) ∧
    (∀ pre rest : List Turn,
      Start env (pre ++ Turn.done :: rest) st = Start env (pre ++ [Turn.done]) st ∧
      (Start env (pre ++ Turn.done :: rest) st).2 = Loop.Stopped) ∧
    ∀ (pre rest : List Turn) (err : GoError),
      Start env (pre ++ Turn.readError err true :: rest) st =
          Start env (pre ++ [Turn.readError err true]) st ∧
        (Start env (pre ++ Turn.readError err true :: rest) st).2 = Loop.Stopped := by
  refine ⟨fun turns => runLoop_stopped_iff env turns _, fun s errs => runLoop_readErrors env errs s,
    fun errs => ?_, fun errs rest => ?_, fun pre rest => ?_, fun pre rest err => ?_⟩
  · simp [Start, runLoop_readErrors, State.log]
  · simp only [Start, runLoop_append env (readErrors errs) rest, runLoop_readErrors, if_true]
  · refine ⟨runLoop_cancelled_cut env pre rest Turn.done _ rfl, ?_⟩
    rw [Start, runLoop_stopped_iff]
    simp [Turn.cancelled]
  · refine ⟨runLoop_cancelled_cut env pre rest (Turn.readError err true) _ rfl, ?_⟩
    rw [Start, runLoop_stopped_iff]
    simp [Turn.cancelled]

end Audit
